import Mathlib

/-!
Shallow embedding of the `@iadvize-oss/store` core
(`packages/store/src/index.ts`) and proofs about its
subscription/notification protocol.

Listener functions are identified by natural numbers: the same number
standing twice in a listener list models the same JavaScript function
reference registered twice (the source stores function references in a
mutable array and removes them with `indexOf` + `splice`).
-/

namespace Store

/-- A Cell (one store created by `create`): the mutable `state` variable and
the mutable `listeners` array (`index.ts` lines 86-88).  Listener entries are
ids of listener functions; duplicates model the same function pushed twice. -/
structure Cell (S : Type) where
  state : S
  listeners : List Nat
deriving Repr, DecidableEq

/-- Semantics of the listener functions: `env i v c` is the cell after the
listener function `i`, called with value `v`, has run its side effects on the
cell (it may subscribe, unsubscribe, or run nested applies).  It is a
parameter of the model, arbitrary unless a claim restricts it. -/
def ListenerSem (S : Type) : Type := Nat → S → Cell S → Cell S

/-- `read` (`index.ts` lines 90-92): returns the current state. -/
def Cell.read {S : Type} (c : Cell S) : S :=
  c.state

/-- The notification loop of `apply` (`index.ts` lines 100-103):
`localListeners.forEach((listener) => { listener(state); })`.
It walks the snapshot list, reads the current `state` at each call, invokes
the listener (which may mutate the cell), and records the invocation as an
event `(id, value passed)`. -/
def notifyLoop {S : Type} (env : ListenerSem S) :
    List Nat → Cell S → List (Nat × S) → Cell S × List (Nat × S)
  | [], c, acc => (c, acc)
  | i :: rest, c, acc =>
      notifyLoop env rest (env i c.state c) (acc ++ [(i, c.state)])

/-- The invoked preparer returned by `apply(reducer)` (`index.ts` lines
94-105): assign `state = reducer(state)`, snapshot the listener array
(`listeners.slice()`), iterate the snapshot.  Returns the `undefined` result
(`Unit`), the cell after the pass, and the invocation events of the pass. -/
def applyCell {S : Type} (env : ListenerSem S) (reducer : S → S) (c : Cell S) :
    Unit × Cell S × List (Nat × S) :=
  let newState := reducer c.state
  let c1 : Cell S := { c with state := newState }
  let snapshot := c1.listeners
  let out := notifyLoop env snapshot c1 []
  ((), out.1, out.2)

/-- The invoked preparer of `apply(reducer)` for a reducer that may throw:
`state = reducer(state)` (line 96) assigns only if the reducer returns; on a
throw the state is untouched, no listener runs, and the error propagates.
Result: cell after the call, delivered events, propagated error. -/
def applyCellE {S E : Type} (env : ListenerSem S) (reducer : S → Except E S)
    (c : Cell S) : Cell S × List (Nat × S) × Option E :=
  match reducer c.state with
  | Except.error e => (c, [], some e)
  | Except.ok newState =>
      let c1 : Cell S := { c with state := newState }
      let out := notifyLoop env c1.listeners c1 []
      (out.1, out.2, none)

/-- The argument given to `subscribe`: either a function (identified by its
id) or a non-callable value. -/
inductive SubscribeArg where
  | callable (i : Nat)
  | notCallable
deriving Repr, DecidableEq

/-- The `subscribe(listener)` call itself (`index.ts` lines 107-110): the
`typeof listener !== 'function'` check runs in the body of `subscribe`, so a
non-callable argument throws before any preparer is returned; a callable
argument yields the preparer (identified here by the listener id it will
push). -/
def subscribeCall (l : SubscribeArg) : Except String Nat :=
  match l with
  | SubscribeArg.notCallable => Except.error "Expected the listener to be a function."
  | SubscribeArg.callable i => Except.ok i

/-- State of one unsubscribe closure (`index.ts` lines 115-131): the listener
function it captured and its private `removed` flag. -/
structure Handle where
  i : Nat
  removed : Bool
deriving Repr, DecidableEq

/-- Invoking the preparer returned by `subscribe` (`index.ts` lines 112-114):
push the listener, create a fresh unsubscribe closure with `removed = false`. -/
def subscribeActivate {S : Type} (i : Nat) (c : Cell S) : Cell S × Handle :=
  ({ c with listeners := c.listeners ++ [i] }, { i := i, removed := false })

/-- `listeners.indexOf(listener)` followed by `splice(index, 1)` when the
index is not `-1` (`index.ts` lines 126-130): remove the first occurrence of
the value, leave the list unchanged when absent. -/
def eraseFirst (i : Nat) : List Nat → List Nat
  | [] => []
  | x :: xs => if x = i then xs else x :: eraseFirst i xs

/-- The unsubscribe closure of a Cell subscription (`index.ts` lines
117-131): a no-op when its `removed` flag is already set, otherwise it sets
the flag and removes the first occurrence of its listener. -/
def unsubscribeRun {S : Type} (c : Cell S) (h : Handle) : Cell S × Handle :=
  if h.removed then (c, h)
  else ({ c with listeners := eraseFirst h.i c.listeners }, { h with removed := true })

/-- Invoking the same subscription preparer `n` times in a row
(each invocation is `subscribeActivate`), collecting the cell. -/
def activateN {S : Type} (i : Nat) : Nat → Cell S → Cell S
  | 0, c => c
  | n + 1, c => activateN i n (subscribeActivate i c).1

/-- Occurrence count of a listener id in a listener list. -/
def countNat (i : Nat) : List Nat → Nat
  | [] => 0
  | x :: xs => (if x = i then 1 else 0) + countNat i xs

/-- `liftAndApply` (`index.ts` lines 302-308): `(...args) =>
store.apply(fn(...args))`.  The factory `fn` may itself throw (error branch),
otherwise the produced reducer is handed to `apply` and the returned preparer
is invoked. -/
def liftAndApply {S E A : Type} (env : ListenerSem S)
    (fn : A → Except E (S → Except E S)) (a : A) (c : Cell S) :
    Cell S × List (Nat × S) × Option E :=
  match fn a with
  | Except.error e => (c, [], some e)
  | Except.ok red => applyCellE env red c

/-- Modelled from the spec side of the claim: the direct call sequence
`store.apply(fn(...args))()` written out without `liftAndApply` — evaluate
the factory, propagate its throw, otherwise invoke the preparer returned by
`apply` on the produced reducer. -/
def applyOfFactory {S E A : Type} (env : ListenerSem S)
    (fn : A → Except E (S → Except E S)) (a : A) (c : Cell S) :
    Cell S × List (Nat × S) × Option E :=
  match fn a with
  | Except.error e => (c, [], some e)
  | Except.ok red => applyCellE env red c

/-- A listener environment on `Nat` cells in which every listener function is
passive (no subscription, unsubscription or nested apply). -/
def passiveEnvNat : ListenerSem Nat := fun _ _ c => c

/-- Listener environment in which listener function `0` subscribes the new
listener function `5` while the notification pass is running. -/
def envSubDuring : ListenerSem Nat := fun i _ c =>
  if i = 0 then { c with listeners := c.listeners ++ [5] } else c

end Store

namespace Project

/-- A listener entry in a source Cell's listener array, as seen from a
projection world: either a relay closure installed by an activation of the
projection's `subscribe` (`index.ts` lines 240-250) — distinct activations
create distinct closures, identified by the activation id `actId`, each
wrapping the projection listener function `lfun` — or any other listener
(`ext`). -/
inductive SrcListener where
  | relay (actId : Nat) (lfun : Nat)
  | ext (extId : Nat)
deriving Repr, DecidableEq

/-- A source Cell of the projection: its state and its listener array. -/
structure SrcCell (σ : Type) where
  state : σ
  listeners : List SrcListener
deriving Repr, DecidableEq

/-- The mutable state of one projection instance together with its source
Cells (`index.ts` lines 195-198): the `sources` it closes over, the
`isUpdating` guard, its own `listeners` array (listener function ids,
duplicates allowed), and a counter for minting fresh relay-closure
identities. -/
structure World (σ : Type) where
  sources : List (SrcCell σ)
  isUpdating : Bool
  projListeners : List Nat
  nextAct : Nat
deriving Repr, DecidableEq

/-- An observable listener invocation: `srcNotify e s` is an `ext` listener
of a source invoked with the source's new state; `projNotify f p` is the
projection listener function `f` invoked with projected value `p`. -/
inductive PEvent (σ π : Type) where
  | srcNotify (extId : Nat) (s : σ)
  | projNotify (lfun : Nat) (p : π)
deriving Repr, DecidableEq

/-- Current states of all sources, `stores.map((store) => store.read())`
(`index.ts` line 201). -/
def readStates {σ : Type} (w : World σ) : List σ :=
  w.sources.map (fun c => c.state)

/-- The projection's `read` (`index.ts` lines 200-204):
`readProjection(...states)` over the fresh current source states. -/
def projRead {σ π : Type} (proj : List σ → π) (w : World σ) : π :=
  proj (readStates w)

/-- One listener of a source Cell's snapshot being invoked during that
source's notification pass.  An `ext` listener is called with the source's
new state.  A relay (`index.ts` lines 240-250) first checks `isUpdating` and
returns without any event when it is set; otherwise it recomputes
`currentState = read()` from all current sources and invokes the wrapped
projection listener with it. -/
def fireListener {σ π : Type} (proj : List σ → π) (w1 : World σ) (newState : σ) :
    SrcListener → Option (PEvent σ π)
  | SrcListener.ext e => some (PEvent.srcNotify e newState)
  | SrcListener.relay _ f =>
      if w1.isUpdating then none
      else some (PEvent.projNotify f (projRead proj w1))

/-- A direct `apply` on source `i` (`stores[i].apply(reducer)()`, the Cell
`apply` of `index.ts` lines 94-105 running inside the projection world):
assign the new state, snapshot that source's listener array, invoke every
snapshot entry.  Returns the world after the call and the events of the
pass. -/
def sourceApply {σ π : Type} (proj : List σ → π) (w : World σ) (i : Nat)
    (r : σ → σ) : World σ × List (PEvent σ π) :=
  match w.sources[i]? with
  | none => (w, [])
  | some cell =>
      let newState := r cell.state
      let cell1 : SrcCell σ := { cell with state := newState }
      let w1 : World σ := { w with sources := w.sources.set i cell1 }
      (w1, cell1.listeners.filterMap (fireListener proj w1 newState))

/-- One step of the caller-supplied `applyProjection` callback: it writes
back into the sources through their own `apply` (spec: "responsible for
writing back into `sources` (typically by calling each source's apply)") or
throws. -/
inductive ProjStep (σ : Type) where
  | write (i : Nat) (r : σ → σ)
  | fail

/-- Running the body of `applyProjection(newState)`: execute its source
writes in order, accumulating their events; a throw aborts the remaining
steps and propagates (`some ()`). -/
def runSteps {σ π : Type} (proj : List σ → π) :
    List (ProjStep σ) → World σ → List (PEvent σ π) →
    World σ × List (PEvent σ π) × Option Unit
  | [], w, acc => (w, acc, none)
  | ProjStep.write i r :: rest, w, acc =>
      let out := sourceApply proj w i r
      runSteps proj rest out.1 (acc ++ out.2)
  | ProjStep.fail :: _, w, acc => (w, acc, some ())

/-- Continuation of the projection `apply` after `applyProjection` returned
(`index.ts` lines 214-223): on a throw the error propagates as-is — the
source has no try/finally, so `isUpdating` keeps whatever value it has;
on normal return `isUpdating` is set back to false and the projection's own
listener snapshot is notified once each with `newState`. -/
def finishApply {σ π : Type} (newState : π)
    (res : World σ × List (PEvent σ π) × Option Unit) :
    World σ × List (PEvent σ π) × Option Unit :=
  match res with
  | (w2, evs, some e) => (w2, evs, some e)
  | (w2, evs, none) =>
      ({ w2 with isUpdating := false },
       evs ++ w2.projListeners.map (fun f => PEvent.projNotify f newState),
       none)

/-- The invoked preparer returned by the projection's `apply(reducer)`
(`index.ts` lines 206-225): compute `newState = reducer(read())`, set
`isUpdating = true`, run `applyProjection(newState)` (given here by the
step program `applyProjection newState`), then `finishApply`. -/
def projApply {σ π : Type} (proj : List σ → π)
    (applyProjection : π → List (ProjStep σ)) (reducer : π → π) (w : World σ) :
    World σ × List (PEvent σ π) × Option Unit :=
  let newState := reducer (projRead proj w)
  let w1 : World σ := { w with isUpdating := true }
  finishApply newState (runSteps proj (applyProjection newState) w1 [])

/-- The projection's `subscribe(listener)` call itself (`index.ts` lines
227-230): same `typeof` check as the Cell's, run in the body of `subscribe`. -/
def projSubscribeCall (l : Store.SubscribeArg) : Except String Nat :=
  match l with
  | Store.SubscribeArg.notCallable => Except.error "Expected the listener to be a function."
  | Store.SubscribeArg.callable i => Except.ok i

/-- State of one unsubscribe closure returned by an activation of the
projection's `subscribe` (`index.ts` lines 253-269): the wrapped listener
function, the identity of the relay closures this activation registered, the
`removed` guard — declared `const removed = false` in the source and never
assigned — and the private `removed` flags of the per-source unsubscribes
captured at activation (those are Cell unsubscribes, whose flags do work). -/
structure ProjHandle where
  lfun : Nat
  actId : Nat
  removed : Bool
  srcFlags : List Bool
deriving Repr, DecidableEq

/-- Invoking the preparer returned by the projection's `subscribe`
(`index.ts` lines 232-251): push the listener onto the projection's own
array, then subscribe-and-activate one fresh relay closure on every source,
and hand back the unsubscribe closure state. -/
def projSubscribeActivate {σ : Type} (w : World σ) (lfun : Nat) :
    World σ × ProjHandle :=
  let a := w.nextAct
  ({ w with
      projListeners := w.projListeners ++ [lfun]
      sources := w.sources.map
        (fun c => { c with listeners := c.listeners ++ [SrcListener.relay a lfun] })
      nextAct := a + 1 },
   { lfun := lfun, actId := a, removed := false,
     srcFlags := List.replicate w.sources.length false })

/-- `indexOf` + `splice` on a source listener array: remove the first
occurrence of the value, no change when absent. -/
def eraseFirstSrc (x : SrcListener) : List SrcListener → List SrcListener
  | [] => []
  | y :: ys => if y = x then ys else y :: eraseFirstSrc x ys

/-- Invoking each per-source unsubscribe captured at activation
(`unsubscribes.forEach((unsubscribe) => unsubscribe())`, `index.ts` line
268): each is a Cell unsubscribe closure (`index.ts` lines 117-131) whose
`removed` flag is honoured, removing its own relay closure from its source. -/
def unsubSources {σ : Type} (rel : SrcListener) :
    List (SrcCell σ) → List Bool → List (SrcCell σ) × List Bool
  | [], _ => ([], [])
  | cs, [] => (cs, [])
  | c :: cs, flag :: fs =>
      let out := unsubSources rel cs fs
      if flag then (c :: out.1, true :: out.2)
      else ({ c with listeners := eraseFirstSrc rel c.listeners } :: out.1,
            true :: out.2)

/-- The unsubscribe closure of a projection subscription (`index.ts` lines
255-269).  The guard reads the `removed` binding, but the source declares it
`const removed = false` and never assigns it, so the handle's `removed` field
is left as-is; the body then removes the first occurrence of the listener
from the projection's own array and invokes every per-source unsubscribe. -/
def projUnsubscribe {σ : Type} (w : World σ) (h : ProjHandle) :
    World σ × ProjHandle :=
  if h.removed then (w, h)
  else
    let out := unsubSources (SrcListener.relay h.actId h.lfun) w.sources h.srcFlags
    ({ w with
        projListeners := Store.eraseFirst h.lfun w.projListeners
        sources := out.1 },
     { h with srcFlags := out.2 })

/-- The projected values delivered to listener function `f` in an event
list, in order. -/
def projEvents {σ π : Type} (f : Nat) : List (PEvent σ π) → List π
  | [] => []
  | PEvent.projNotify g p :: rest =>
      if g = f then p :: projEvents f rest else projEvents f rest
  | PEvent.srcNotify _ _ :: rest => projEvents f rest

/-- Number of relay entries wrapping listener function `f`. -/
def relayCountF (f : Nat) : List SrcListener → Nat
  | [] => 0
  | SrcListener.relay _ g :: rest => (if g = f then 1 else 0) + relayCountF f rest
  | SrcListener.ext _ :: rest => relayCountF f rest

/-- Sum of the source states, a concrete `readProjection`. -/
def sumProj : List Nat → Nat := fun ss => ss.foldl (fun a b => a + b) 0

/-- Concrete world: one source holding `2` that already carries the relay of
one subscription of listener function `0`, which is also in the projection's
own listener array. -/
def oneSrcWorld : World Nat :=
  { sources := [{ state := 2, listeners := [SrcListener.relay 0 0] }]
    isUpdating := false
    projListeners := [0]
    nextAct := 1 }

/-- Concrete `applyProjection` for `oneSrcWorld` that throws before writing
anything back. -/
def throwingAp : Nat → List (ProjStep Nat) := fun _ => [ProjStep.fail]

/-- Result of a projection `apply` on `oneSrcWorld` whose `applyProjection`
throws. -/
def c2Thrown : World Nat × List (PEvent Nat Nat) × Option Unit :=
  projApply sumProj throwingAp (fun p => p) oneSrcWorld

/-- Concrete world: one source holding `2`, no subscription yet. -/
def freshWorld : World Nat :=
  { sources := [{ state := 2, listeners := [] }]
    isUpdating := false
    projListeners := []
    nextAct := 0 }

/-- `freshWorld` after two activations of `subscribe` for the same listener
function `7` (two independent entries wrapping the same function). -/
def c7Twice : World Nat × ProjHandle × ProjHandle :=
  let s1 := projSubscribeActivate freshWorld 7
  let s2 := projSubscribeActivate s1.1 7
  (s2.1, s1.2, s2.2)

/-- `c7Twice` after one call of the second entry's unsubscribe. -/
def c7Once : World Nat × ProjHandle :=
  projUnsubscribe c7Twice.1 c7Twice.2.2

/-- `c7Once` after calling the same unsubscribe a second time. -/
def c7Again : World Nat × ProjHandle :=
  projUnsubscribe c7Once.1 c7Once.2

/-- `applyProjection` for a one-source sum projection: write the projected
value into the single source. -/
def writeBackAp : Nat → List (ProjStep Nat) := fun p => [ProjStep.write 0 (fun _ => p)]

/-- Concrete world with three sources for the single-notification scenario:
listener function `0` subscribed once (one entry, one relay per source). -/
def threeSrcWorld : World Nat :=
  { sources :=
      [{ state := 1, listeners := [SrcListener.relay 0 0] },
       { state := 2, listeners := [SrcListener.relay 0 0] },
       { state := 3, listeners := [SrcListener.relay 0 0] }]
    isUpdating := false
    projListeners := [0]
    nextAct := 1 }

/-- `applyProjection` for `threeSrcWorld`: write all three sources back. -/
def threeWriteAp : Nat → List (ProjStep Nat) := fun p =>
  [ProjStep.write 0 (fun _ => p), ProjStep.write 1 (fun _ => 0),
   ProjStep.write 2 (fun _ => 0)]

/-- Concrete world with two sources holding `2` and `3` and no listeners
anywhere, for the upstream-change scenario. -/
def twoSrcWorld : World Nat :=
  { sources := [{ state := 2, listeners := [] }, { state := 3, listeners := [] }]
    isUpdating := false
    projListeners := []
    nextAct := 0 }

end Project

namespace Store

theorem notifyLoop_map_fst {S : Type} (env : ListenerSem S) :
    ∀ (l : List Nat) (c : Cell S) (acc : List (Nat × S)),
      ((notifyLoop env l c acc).2).map Prod.fst = acc.map Prod.fst ++ l := by
  intro l
  induction l with
  | nil => intro c acc; simp [notifyLoop]
  | cons i rest ih =>
      intro c acc
      simp [notifyLoop, ih]

theorem notifyLoop_passive {S : Type} (env : ListenerSem S) :
    ∀ (l : List Nat) (c : Cell S) (acc : List (Nat × S)),
      (∀ i, i ∈ l → ∀ v c2, env i v c2 = c2) →
      notifyLoop env l c acc = (c, acc ++ l.map (fun i => (i, c.state))) := by
  intro l
  induction l with
  | nil => intro c acc _; simp [notifyLoop]
  | cons i rest ih =>
      intro c acc hp
      have hi : env i c.state c = c := hp i (by simp) c.state c
      simp [notifyLoop, hi]
      rw [ih c (acc ++ [(i, c.state)]) (fun j hj v c2 => hp j (by simp [hj]) v c2)]
      simp

theorem countNat_append (i : Nat) (l1 l2 : List Nat) :
    countNat i (l1 ++ l2) = countNat i l1 + countNat i l2 := by
  induction l1 with
  | nil => simp [countNat]
  | cons x xs ih => simp [countNat, ih]; omega

theorem countNat_replicate_self (i n : Nat) :
    countNat i (List.replicate n i) = n := by
  induction n with
  | zero => simp [countNat]
  | succ n ih => simp [List.replicate, countNat, ih]; omega

theorem countNat_zero_not_mem {i : Nat} {l : List Nat} (h : countNat i l = 0) :
    i ∉ l := by
  induction l with
  | nil => simp
  | cons x xs ih =>
      simp [countNat] at h
      rcases h with ⟨h1, h2⟩
      simp [ih h2]
      intro he
      exact h1 (by rw [he])

theorem eraseFirst_append_of_not_mem {i : Nat} {l1 : List Nat}
    (h : countNat i l1 = 0) (l2 : List Nat) :
    eraseFirst i (l1 ++ l2) = l1 ++ eraseFirst i l2 := by
  induction l1 with
  | nil => simp
  | cons x xs ih =>
      simp [countNat] at h
      rcases h with ⟨h1, h2⟩
      have hx : ¬ x = i := fun he => h1 (by rw [he])
      simp [eraseFirst, hx, ih h2]

theorem activateN_listeners {S : Type} (i : Nat) :
    ∀ (n : Nat) (c : Cell S),
      (activateN i n c).listeners = c.listeners ++ List.replicate n i := by
  intro n
  induction n with
  | zero => intro c; simp [activateN]
  | succ n ih =>
      intro c
      simp [activateN, subscribeActivate, ih]
      simp [List.replicate_succ]

/-- C1: for every Cell, the set of listeners invoked during a single
notification pass of `apply` is exactly the snapshot of the listener
sequence taken at the start of that pass — whatever the listeners themselves
do to the cell while the pass runs: a listener subscribed during the pass is
not invoked in that pass, a listener unsubscribed during the pass is still
invoked in that pass if it was in the snapshot, and a listener no longer
registered when the pass ends is not invoked in a subsequent pass. -/
theorem cell_notification_snapshot (S : Type) (env env2 : ListenerSem S)
    (r r2 : S → S) (c : Cell S) :
    (((applyCell env r c).2.2).map Prod.fst = c.listeners)
    ∧ (∀ j, j ∉ c.listeners → j ∉ ((applyCell env r c).2.2).map Prod.fst)
    ∧ (∀ k, k ∈ c.listeners → k ∈ ((applyCell env r c).2.2).map Prod.fst)
    ∧ (∀ k, k ∉ ((applyCell env r c).2.1).listeners →
        k ∉ ((applyCell env2 r2 (applyCell env r c).2.1).2.2).map Prod.fst) := by
  have h1 : ((applyCell env r c).2.2).map Prod.fst = c.listeners := by
    simp [applyCell, notifyLoop_map_fst]
  refine ⟨h1, ?_, ?_, ?_⟩
  · intro j hj
    rw [h1]
    exact hj
  · intro k hk
    rw [h1]
    exact hk
  · intro k hk
    have h2 : ((applyCell env2 r2 (applyCell env r c).2.1).2.2).map Prod.fst
        = ((applyCell env r c).2.1).listeners := by
      simp [applyCell, notifyLoop_map_fst]
    rw [h2]
    exact hk

/-- Witness for C1: in a pass over the snapshot `[0, 1]` in which listener
`0` subscribes the new listener `5`, listener `5` is not invoked. -/
theorem cell_notification_snapshot_witness :
    (5 : Nat) ∉ ((applyCell envSubDuring (fun s => s + 1) (Cell.mk 0 [0, 1])).2.2).map Prod.fst :=
  (cell_notification_snapshot Nat envSubDuring envSubDuring (fun s => s + 1)
    (fun s => s + 1) (Cell.mk 0 [0, 1])).2.1 5 (by decide)

/-- C5: for every Cell holding state `s`, every reducer `r`, and passive
listeners, invoking the preparer returned by `apply(r)` makes a subsequent
`read()` return `r s`, returns `undefined`, and invokes each listener entry
registered at that moment exactly once, in order, with the new state `r s`. -/
theorem cell_apply_updates_and_notifies (S : Type) (env : ListenerSem S)
    (r : S → S) (c : Cell S)
    (hp : ∀ i, i ∈ c.listeners → ∀ v c2, env i v c2 = c2) :
    (applyCell env r c).1 = ()
    ∧ Cell.read (applyCell env r c).2.1 = r (Cell.read c)
    ∧ (applyCell env r c).2.2 = c.listeners.map (fun i => (i, r (Cell.read c))) := by
  have key : notifyLoop env c.listeners { c with state := r c.state } []
      = ({ c with state := r c.state },
         [] ++ c.listeners.map (fun i => (i, r c.state))) :=
    notifyLoop_passive env c.listeners { c with state := r c.state } [] hp
  refine ⟨rfl, ?_, ?_⟩
  · show ((applyCell env r c).2.1).state = r c.state
    simp [applyCell, key]
  · show (applyCell env r c).2.2 = c.listeners.map (fun i => (i, r c.state))
    simp [applyCell, key]

/-- Witness for C5 at the cell holding `2` with listeners `[0, 1]` and the
reducer adding one. -/
theorem cell_apply_updates_witness :
    (applyCell passiveEnvNat (fun s => s + 1) (Cell.mk 2 [0, 1])).1 = ()
    ∧ Cell.read (applyCell passiveEnvNat (fun s => s + 1) (Cell.mk 2 [0, 1])).2.1
        = (fun s => s + 1) (Cell.read (Cell.mk 2 [0, 1]))
    ∧ (applyCell passiveEnvNat (fun s => s + 1) (Cell.mk 2 [0, 1])).2.2
        = (Cell.mk 2 [0, 1]).listeners.map
            (fun i => (i, (fun s => s + 1) (Cell.read (Cell.mk 2 [0, 1])))) :=
  cell_apply_updates_and_notifies Nat passiveEnvNat (fun s => s + 1)
    (Cell.mk 2 [0, 1]) (fun _ _ _ _ => rfl)

/-- C6: for every Cell and every reducer that throws on the current state,
the invoked preparer propagates the error, leaves the state at its pre-call
value, and invokes no listener. -/
theorem cell_apply_throw_propagates (S E : Type) (env : ListenerSem S)
    (red : S → Except E S) (c : Cell S) (e : E)
    (herr : red c.state = Except.error e) :
    applyCellE env red c = (c, [], some e) := by
  simp [applyCellE, herr]

/-- Witness for C6 at a cell holding `2` with one listener and a reducer
that always throws `7`. -/
theorem cell_apply_throw_witness :
    applyCellE passiveEnvNat (fun _ => Except.error 7) (Cell.mk 2 [0])
      = (Cell.mk 2 [0], [], some 7) :=
  cell_apply_throw_propagates Nat Nat passiveEnvNat (fun _ => Except.error 7)
    (Cell.mk 2 [0]) 7 rfl

/-- C8: invoking the preparer returned by `subscribe(listener)` `n + 1`
times creates `n + 1` independent entries; after unsubscribing only the
first entry, the next apply still delivers once per remaining entry; and
calling a single entry's unsubscribe a second time removes nothing further. -/
theorem cell_independent_entries (S : Type) (env : ListenerSem S) (r : S → S)
    (c : Cell S) (f n : Nat) (hf : countNat f c.listeners = 0) :
    countNat f (activateN f (n + 1) c).listeners = n + 1
    ∧ countNat f ((unsubscribeRun (activateN f (n + 1) c) (Handle.mk f false)).1).listeners = n
    ∧ countNat f (((applyCell env r
        (unsubscribeRun (activateN f (n + 1) c) (Handle.mk f false)).1).2.2).map Prod.fst) = n
    ∧ (unsubscribeRun (unsubscribeRun (activateN f (n + 1) c) (Handle.mk f false)).1
        (unsubscribeRun (activateN f (n + 1) c) (Handle.mk f false)).2).1
      = (unsubscribeRun (activateN f (n + 1) c) (Handle.mk f false)).1 := by
  have hl : (activateN f (n + 1) c).listeners = c.listeners ++ List.replicate (n + 1) f :=
    activateN_listeners f (n + 1) c
  have h2 : ((unsubscribeRun (activateN f (n + 1) c) (Handle.mk f false)).1).listeners
      = c.listeners ++ List.replicate n f := by
    simp [unsubscribeRun, hl, eraseFirst_append_of_not_mem hf, List.replicate_succ,
      eraseFirst]
  refine ⟨?_, ?_, ?_, ?_⟩
  · rw [hl, countNat_append, hf, countNat_replicate_self]
    omega
  · rw [h2, countNat_append, hf, countNat_replicate_self]
    omega
  · have h3 : (((applyCell env r
        (unsubscribeRun (activateN f (n + 1) c) (Handle.mk f false)).1).2.2).map Prod.fst)
        = ((unsubscribeRun (activateN f (n + 1) c) (Handle.mk f false)).1).listeners := by
      simp [applyCell, notifyLoop_map_fst]
    rw [h3, h2, countNat_append, hf, countNat_replicate_self]
    omega
  · simp [unsubscribeRun]

/-- Witness for C8: two activations of the same preparer for listener `3`
on an empty cell, first entry unsubscribed, next apply delivers once. -/
theorem cell_independent_entries_witness :
    countNat 3 (((applyCell passiveEnvNat (fun s => s)
      (unsubscribeRun (activateN 3 2 (Cell.mk 0 [])) (Handle.mk 3 false)).1).2.2).map Prod.fst) = 1 :=
  (cell_independent_entries Nat passiveEnvNat (fun s => s) (Cell.mk 0 []) 3 1 rfl).2.2.1

/-- C9 counterexample: the claim says `subscribe(v)` on a non-callable `v`
returns a preparer without throwing, the throw happening only when the
preparer is invoked; in the code the `typeof` check runs in the body of
`subscribe`, so the `subscribe` call itself throws, on Cells and Projections
alike. -/
theorem subscribe_noncallable_counterexample :
    subscribeCall SubscribeArg.notCallable
      = Except.error "Expected the listener to be a function."
    ∧ Project.projSubscribeCall SubscribeArg.notCallable
      = Except.error "Expected the listener to be a function." :=
  ⟨rfl, rfl⟩

/-- C9 (amended): for every non-callable value `v`, `subscribe(v)` on a Cell
or a Projection raises the InvalidListener condition synchronously at
subscribe time — the `subscribe` call itself throws and no preparer is
returned — while for a callable listener `subscribe` returns the preparer
without throwing. -/
theorem subscribe_validation_at_subscribe_time :
    (subscribeCall SubscribeArg.notCallable
      = Except.error "Expected the listener to be a function.")
    ∧ (Project.projSubscribeCall SubscribeArg.notCallable
      = Except.error "Expected the listener to be a function.")
    ∧ (∀ i, subscribeCall (SubscribeArg.callable i) = Except.ok i)
    ∧ (∀ i, Project.projSubscribeCall (SubscribeArg.callable i) = Except.ok i) :=
  ⟨rfl, rfl, fun _ => rfl, fun _ => rfl⟩

/-- C10: for every store, factory `fn` and argument `a`, invoking
`liftAndApply(fn, store)(a)()` is observationally equivalent to invoking
`store.apply(fn(a))()`: same resulting cell, same notifications in the same
order, and the same error propagation whether `fn` or the produced reducer
throws. -/
theorem liftAndApply_equiv (S E A : Type) (env : ListenerSem S)
    (fn : A → Except E (S → Except E S)) (a : A) (c : Cell S) :
    liftAndApply env fn a c = applyOfFactory env fn a c := rfl

end Store

namespace Project

theorem projEvents_append {σ π : Type} (f : Nat) (l1 l2 : List (PEvent σ π)) :
    projEvents f (l1 ++ l2) = projEvents f l1 ++ projEvents f l2 := by
  induction l1 with
  | nil => simp [projEvents]
  | cons e rest ih =>
      cases e with
      | srcNotify i s => simp [projEvents, ih]
      | projNotify g p =>
          by_cases hg : g = f
          · simp [projEvents, hg, ih]
          · simp [projEvents, hg, ih]

theorem projEvents_fire_updating {σ π : Type} (f : Nat) (proj : List σ → π)
    (w1 : World σ) (s : σ) (hu : w1.isUpdating = true) :
    ∀ l : List SrcListener,
      projEvents f (l.filterMap (fireListener proj w1 s)) = [] := by
  intro l
  induction l with
  | nil => simp [projEvents]
  | cons x rest ih =>
      cases x with
      | ext e => simp [fireListener, projEvents, ih]
      | relay a g => simp [fireListener, hu, ih]

theorem projEvents_fire_noRelay {σ π : Type} (f : Nat) (proj : List σ → π)
    (w1 : World σ) (s : σ) :
    ∀ l : List SrcListener, relayCountF f l = 0 →
      projEvents f (l.filterMap (fireListener proj w1 s)) = [] := by
  intro l
  induction l with
  | nil => intro _; simp [projEvents]
  | cons x rest ih =>
      intro h
      cases x with
      | ext e =>
          simp [relayCountF] at h
          simp [fireListener, projEvents, ih h]
      | relay a g =>
          simp [relayCountF] at h
          rcases h with ⟨h1, h2⟩
          have hg : ¬ g = f := fun he => h1 (by rw [he])
          by_cases hu : w1.isUpdating
          · simp [fireListener, hu, ih h2]
          · simp [fireListener, hu, projEvents, hg, ih h2]

theorem sourceApply_isUpdating {σ π : Type} (proj : List σ → π) (w : World σ)
    (i : Nat) (r : σ → σ) :
    ((sourceApply proj w i r).1).isUpdating = w.isUpdating := by
  cases h : w.sources[i]? <;> simp [sourceApply, h]

theorem sourceApply_projListeners {σ π : Type} (proj : List σ → π) (w : World σ)
    (i : Nat) (r : σ → σ) :
    ((sourceApply proj w i r).1).projListeners = w.projListeners := by
  cases h : w.sources[i]? <;> simp [sourceApply, h]

theorem sourceApply_updating_events {σ π : Type} (f : Nat) (proj : List σ → π)
    (w : World σ) (i : Nat) (r : σ → σ) (hu : w.isUpdating = true) :
    projEvents f ((sourceApply proj w i r).2) = [] := by
  cases h : w.sources[i]? with
  | none => simp [sourceApply, h, projEvents]
  | some cell =>
      simp [sourceApply, h]
      apply projEvents_fire_updating
      simpa using hu

theorem runSteps_updating {σ π : Type} (f : Nat) (proj : List σ → π) :
    ∀ (steps : List (ProjStep σ)) (w : World σ) (acc : List (PEvent σ π)),
      w.isUpdating = true →
      ((runSteps proj steps w acc).1.isUpdating = true)
      ∧ ((runSteps proj steps w acc).1.projListeners = w.projListeners)
      ∧ projEvents f ((runSteps proj steps w acc).2.1) = projEvents f acc := by
  intro steps
  induction steps with
  | nil => intro w acc hu; exact ⟨hu, rfl, rfl⟩
  | cons st rest ih =>
      intro w acc hu
      cases st with
      | write i r =>
          have hu1 : ((sourceApply proj w i r).1).isUpdating = true := by
            rw [sourceApply_isUpdating, hu]
          have hev : projEvents f ((sourceApply proj w i r).2 : List (PEvent σ π)) = [] :=
            sourceApply_updating_events f proj w i r hu
          have hrec := ih (sourceApply proj w i r).1
            (acc ++ (sourceApply proj w i r).2) hu1
          refine ⟨?_, ?_, ?_⟩
          · exact (by simpa [runSteps] using hrec.1)
          · have := hrec.2.1
            rw [sourceApply_projListeners] at this
            simpa [runSteps] using this
          · have := hrec.2.2
            rw [projEvents_append, hev, List.append_nil] at this
            simpa [runSteps] using this
      | fail => exact ⟨hu, rfl, rfl⟩

theorem projEvents_map_notify {σ π : Type} (f : Nat) (v : π) :
    ∀ l : List Nat,
      projEvents f ((l.map (fun g => PEvent.projNotify g v)) : List (PEvent σ π))
        = List.replicate (Store.countNat f l) v := by
  intro l
  induction l with
  | nil => simp [projEvents, Store.countNat]
  | cons g rest ih =>
      by_cases hg : g = f
      · simp [projEvents, hg, Store.countNat, ih]
        rw [Nat.add_comm, List.replicate_succ]
      · have hg2 : ¬ g = f := hg
        simp [projEvents, hg2, Store.countNat, ih]

end Project

namespace Project

/-- C3: one invocation of the preparer returned by the projection's `apply`
invokes a subscribed listener at most once — and exactly once when
`applyProjection` returns normally — regardless of how many source Cells
`applyProjection` writes to during the call: every relay fired by those
writes sees `isUpdating` and stays silent, and only the single final pass
over the projection's own listener snapshot delivers. -/
theorem proj_apply_single_notification (σ π : Type) (proj : List σ → π)
    (ap : π → List (ProjStep σ)) (red : π → π) (w : World σ) (f : Nat) :
    (Store.countNat f w.projListeners ≤ 1 →
      (projEvents f (projApply proj ap red w).2.1).length ≤ 1)
    ∧ ((projApply proj ap red w).2.2 = none →
        Store.countNat f w.projListeners = 1 →
        (projEvents f (projApply proj ap red w).2.1).length = 1) := by
  have inv := runSteps_updating f proj (ap (red (projRead proj w)))
    { w with isUpdating := true } [] rfl
  rcases hres : runSteps proj (ap (red (projRead proj w)))
      { w with isUpdating := true } ([] : List (PEvent σ π)) with ⟨w2, evs, err⟩
  rw [hres] at inv
  obtain ⟨hupd2, hpl, hevs⟩ := inv
  have hevs0 : projEvents f evs = [] := by simpa [projEvents] using hevs
  have hpl2 : w2.projListeners = w.projListeners := hpl
  have hout : projApply proj ap red w = finishApply (red (projRead proj w)) (w2, evs, err) := by
    simp only [projApply]
    rw [hres]
  cases err with
  | some e =>
      constructor
      · intro _
        rw [hout]
        simp only [finishApply]
        rw [hevs0]
        simp
      · intro hnone
        rw [hout] at hnone
        simp [finishApply] at hnone
  | none =>
      constructor
      · intro hle
        rw [hout]
        simp only [finishApply]
        rw [projEvents_append, hevs0, projEvents_map_notify, hpl2]
        simpa using hle
      · intro _ hone
        rw [hout]
        simp only [finishApply]
        rw [projEvents_append, hevs0, projEvents_map_notify, hpl2, hone]
        simp

/-- Witness for C3: a three-source projection with one subscribed listener;
a projection `apply` whose `applyProjection` writes all three sources back
delivers exactly one notification to that listener. -/
theorem proj_apply_single_notification_witness :
    (projEvents 0 (projApply sumProj threeWriteAp (fun p => p + 1) threeSrcWorld).2.1).length = 1 :=
  (proj_apply_single_notification Nat Nat sumProj threeWriteAp (fun p => p + 1)
    threeSrcWorld 0).2 rfl rfl

/-- C2 fails on the code: the projection `apply` has no try/finally, so when
`applyProjection` throws, the error propagates with `isUpdating` still true,
and a subsequent direct `apply` on the source delivers nothing to the
projection's listener — the suppression is permanently wedged, where the
claim requires `isUpdating` to be reset before the throw propagates. -/
theorem projApply_throw_leaves_isUpdating :
    c2Thrown.2.2 = some ()
    ∧ c2Thrown.1.isUpdating = true
    ∧ (sourceApply sumProj c2Thrown.1 0 (fun s => s + 1)).2
        = ([] : List (PEvent Nat Nat)) :=
  ⟨rfl, rfl, rfl⟩

/-- C7 fails on the code: in the projection's unsubscribe the guard variable
is declared `const removed = false` and never set, so the second call of the
same unsubscribe runs the removal again and deletes the sibling entry that
wraps the same listener function: after two activations for listener `7` and
two calls of the second activation's unsubscribe, the projection's listener
array is empty instead of keeping the first entry, and the next projection
`apply` delivers nothing instead of one notification. -/
theorem projUnsubscribe_not_idempotent :
    c7Once.1.projListeners = [7]
    ∧ c7Again.1.projListeners = []
    ∧ projEvents 7 ((projApply sumProj writeBackAp (fun p => p) c7Once.1).2.1) = [2]
    ∧ projEvents 7 ((projApply sumProj writeBackAp (fun p => p) c7Again.1).2.1) = [] :=
  ⟨rfl, rfl, rfl, rfl⟩

end Project

namespace Project

theorem relayCountF_zero_not_mem {f : Nat} :
    ∀ {l : List SrcListener}, relayCountF f l = 0 →
      ∀ a, SrcListener.relay a f ∉ l := by
  intro l
  induction l with
  | nil => intro _ a; simp
  | cons x rest ih =>
      intro h a
      cases x with
      | ext e =>
          simp [relayCountF] at h
          simp [ih h a]
      | relay b g =>
          simp [relayCountF] at h
          rcases h with ⟨h1, h2⟩
          simp [ih h2 a]
          intro _ he
          exact h1 (by rw [he])

theorem eraseFirstSrc_append_self {x : SrcListener} :
    ∀ {l : List SrcListener}, x ∉ l → eraseFirstSrc x (l ++ [x]) = l := by
  intro l
  induction l with
  | nil => intro _; simp [eraseFirstSrc]
  | cons y rest ih =>
      intro h
      simp at h
      rcases h with ⟨h1, h2⟩
      have hy : ¬ y = x := fun he => h1 he.symm
      simp [eraseFirstSrc, hy, ih h2]

theorem unsubSources_all_false {σ : Type} (rel : SrcListener) :
    ∀ cs : List (SrcCell σ),
      unsubSources rel cs (List.replicate cs.length false)
        = (cs.map (fun c => { c with listeners := eraseFirstSrc rel c.listeners }),
           List.replicate cs.length true) := by
  intro cs
  induction cs with
  | nil => simp [unsubSources]
  | cons c rest ih =>
      simp [List.replicate_succ, unsubSources, ih]

theorem sourceApply_spec {σ π : Type} (proj : List σ → π) (w : World σ)
    (i : Nat) (r : σ → σ) (cell : SrcCell σ) (hc : w.sources[i]? = some cell) :
    sourceApply proj w i r
      = ({ w with sources := w.sources.set i { state := r cell.state, listeners := cell.listeners } },
         cell.listeners.filterMap
           (fireListener proj
             { w with sources := w.sources.set i { state := r cell.state, listeners := cell.listeners } }
             (r cell.state))) := by
  simp [sourceApply, hc]

end Project

namespace Project

theorem projUnsubscribe_spec {σ : Type} (w : World σ) (lf a : Nat) :
    projUnsubscribe w ⟨lf, a, false, List.replicate w.sources.length false⟩
      = ({ w with
            projListeners := Store.eraseFirst lf w.projListeners
            sources := w.sources.map (fun c =>
              { c with listeners := eraseFirstSrc (SrcListener.relay a lf) c.listeners }) },
         ⟨lf, a, false, List.replicate w.sources.length true⟩) := by
  simp [projUnsubscribe, unsubSources_all_false]

theorem sourceApply_events_noRelay {σ π : Type} (f : Nat) (proj : List σ → π)
    (W : World σ) (i : Nat) (r2 : σ → σ)
    (hW : ∀ cell, W.sources[i]? = some cell → relayCountF f cell.listeners = 0) :
    projEvents f ((sourceApply proj W i r2).2 : List (PEvent σ π)) = [] := by
  cases hc : W.sources[i]? with
  | none => simp [sourceApply, hc, projEvents]
  | some cell =>
      simp [sourceApply, hc]
      exact projEvents_fire_noRelay f proj _ _ _ (hW cell hc)

/-- C4: for every projection and every listener subscribed to it, a single
`apply` performed directly on one source Cell (not through the projection,
with `isUpdating` false) invokes that listener exactly once, with the value
`readProjection` applied to the current post-change states of all source
Cells at the moment the relay fires; and after the projection unsubscribe has
been called, such a source `apply` no longer invokes the listener. -/
theorem source_apply_notifies_projection (σ π : Type) (proj : List σ → π)
    (w : World σ) (f i : Nat) (r r2 : σ → σ)
    (hupd : w.isUpdating = false)
    (hi : i < w.sources.length)
    (hnof : relayCountF f (w.sources[i]).listeners = 0)
    (w1 : World σ) (h : ProjHandle) (hact : projSubscribeActivate w f = (w1, h))
    (w2 : World σ) (evs : List (PEvent σ π)) (hsrc : sourceApply proj w1 i r = (w2, evs))
    (w3 : World σ) (h2 : ProjHandle) (huns : projUnsubscribe w2 h = (w3, h2))
    (w4 : World σ) (evs2 : List (PEvent σ π)) (hsrc2 : sourceApply proj w3 i r2 = (w4, evs2)) :
    projEvents f evs = [projRead proj w2] ∧ projEvents f evs2 = [] := by
  have hbase : w.sources[i]? = some (w.sources[i]) := List.getElem?_eq_getElem hi
  have hw1sources : w1.sources = w.sources.map
      (fun c => { c with listeners := c.listeners ++ [SrcListener.relay w.nextAct f] }) := by
    have hc := congrArg (fun p => (Prod.fst p).sources) hact
    simpa [projSubscribeActivate] using hc.symm
  have hw1upd : w1.isUpdating = w.isUpdating := by
    have hc := congrArg (fun p => (Prod.fst p).isUpdating) hact
    simpa [projSubscribeActivate] using hc.symm
  have hh : h = ⟨f, w.nextAct, false, List.replicate w.sources.length false⟩ := by
    have hc := congrArg Prod.snd hact
    simpa [projSubscribeActivate] using hc.symm
  have hi1 : i < w1.sources.length := by
    rw [hw1sources, List.length_map]
    exact hi
  have hw1i : w1.sources[i]? = some ⟨(w.sources[i]).state,
      (w.sources[i]).listeners ++ [SrcListener.relay w.nextAct f]⟩ := by
    rw [hw1sources, List.getElem?_map, hbase]
    rfl
  rw [sourceApply_spec proj w1 i r _ hw1i] at hsrc
  injection hsrc with hw2 hevs
  have hw2sources : w2.sources
      = w1.sources.set i ⟨r ((w.sources[i]).state),
          (w.sources[i]).listeners ++ [SrcListener.relay w.nextAct f]⟩ := by
    rw [← hw2]
  have hw2upd : w2.isUpdating = false := by
    rw [← hw2]
    show w1.isUpdating = false
    rw [hw1upd, hupd]
  rw [hw2] at hevs
  have hw2len : w2.sources.length = w.sources.length := by
    rw [hw2sources, List.length_set, hw1sources, List.length_map]
  have herase : eraseFirstSrc (SrcListener.relay w.nextAct f)
      ((w.sources[i]).listeners ++ [SrcListener.relay w.nextAct f])
      = (w.sources[i]).listeners :=
    eraseFirstSrc_append_self (relayCountF_zero_not_mem hnof w.nextAct)
  constructor
  · rw [← hevs]
    show projEvents f (((w.sources[i]).listeners
        ++ [SrcListener.relay w.nextAct f]).filterMap
          (fireListener proj w2 (r ((w.sources[i]).state)))) = _
    rw [List.filterMap_append, projEvents_append,
      projEvents_fire_noRelay f proj _ _ _ hnof]
    simp [fireListener, projEvents, hw2upd]
  · have hh2 : h = ⟨f, w.nextAct, false, List.replicate w2.sources.length false⟩ := by
      rw [hh, hw2len]
    rw [hh2, projUnsubscribe_spec] at huns
    injection huns with hw3 hh3
    have hw3sources : w3.sources = w2.sources.map
        (fun c => { c with listeners := eraseFirstSrc (SrcListener.relay w.nextAct f) c.listeners }) := by
      rw [← hw3]
    have hw3i : w3.sources[i]? = some ⟨r ((w.sources[i]).state),
        (w.sources[i]).listeners⟩ := by
      rw [hw3sources, List.getElem?_map, hw2sources,
        List.getElem?_set_eq_of_lt _ hi1]
      show some _ = some _
      rw [Option.some_inj]
      show SrcCell.mk (r ((w.sources[i]).state))
          (eraseFirstSrc (SrcListener.relay w.nextAct f)
            ((w.sources[i]).listeners ++ [SrcListener.relay w.nextAct f])) = _
      rw [herase]
    have hevs2 : evs2 = (sourceApply proj w3 i r2).2 := by
      rw [hsrc2]
    rw [hevs2]
    refine sourceApply_events_noRelay f proj w3 i r2 ?_
    intro cell hcell
    rw [hw3i] at hcell
    injection hcell with hc
    rw [← hc]
    exact hnof

/-- Witness for C4: two sources holding 2 and 3, listener `5` subscribed,
then a direct `apply` adding 10 on source 0 delivers exactly one
notification carrying the recomputed projection; after unsubscribing, a
further source `apply` delivers nothing. -/
theorem source_apply_notifies_projection_witness :
    projEvents 5 ((sourceApply sumProj (projSubscribeActivate twoSrcWorld 5).1 0 (fun s => s + 10)).2)
      = [projRead sumProj ((sourceApply sumProj (projSubscribeActivate twoSrcWorld 5).1 0 (fun s => s + 10)).1)]
    ∧ projEvents 5 ((sourceApply sumProj
        (projUnsubscribe ((sourceApply sumProj (projSubscribeActivate twoSrcWorld 5).1 0 (fun s => s + 10)).1)
          (projSubscribeActivate twoSrcWorld 5).2).1 0 (fun s => s + 1)).2) = [] :=
  source_apply_notifies_projection Nat Nat sumProj twoSrcWorld 5 0
    (fun s => s + 10) (fun s => s + 1) rfl (by decide) rfl
    (projSubscribeActivate twoSrcWorld 5).1 (projSubscribeActivate twoSrcWorld 5).2 rfl
    (sourceApply sumProj (projSubscribeActivate twoSrcWorld 5).1 0 (fun s => s + 10)).1
    (sourceApply sumProj (projSubscribeActivate twoSrcWorld 5).1 0 (fun s => s + 10)).2 rfl
    (projUnsubscribe ((sourceApply sumProj (projSubscribeActivate twoSrcWorld 5).1 0 (fun s => s + 10)).1)
      (projSubscribeActivate twoSrcWorld 5).2).1
    (projUnsubscribe ((sourceApply sumProj (projSubscribeActivate twoSrcWorld 5).1 0 (fun s => s + 10)).1)
      (projSubscribeActivate twoSrcWorld 5).2).2 rfl
    (sourceApply sumProj
      (projUnsubscribe ((sourceApply sumProj (projSubscribeActivate twoSrcWorld 5).1 0 (fun s => s + 10)).1)
        (projSubscribeActivate twoSrcWorld 5).2).1 0 (fun s => s + 1)).1
    (sourceApply sumProj
      (projUnsubscribe ((sourceApply sumProj (projSubscribeActivate twoSrcWorld 5).1 0 (fun s => s + 10)).1)
        (projSubscribeActivate twoSrcWorld 5).2).1 0 (fun s => s + 1)).2 rfl


end Project
